import Mathlib

/-
Verification development for the nancy log-analysis core
(src/analyze/classify.py, src/analyze/parse_logs.py, src/analyze/compare.py).

The Python code is shallowly embedded: heterogeneous event dicts become a
flat `Event` structure with optional fields, regex tables become explicit
character-list matchers with the same search semantics (anchored prefix for
command-name rules, unanchored search for content rules, case folding for
IGNORECASE tables), and the stateful accumulation loops become folds over
explicit state records.
-/

namespace Nancy

/-! ### String scanning helpers (embedding of Python `in`, `str.lower`, `re.search`) -/

/-- Whether `pat` occurs as a contiguous segment of `s` (Python `pat in s`). -/
def occursIn (pat : List Char) : List Char → Bool
  | [] => pat.isEmpty
  | c :: rest => pat.isPrefixOf (c :: rest) || occursIn pat rest

/-- Python `pat in hay` on strings. -/
def strOccurs (hay pat : String) : Bool := occursIn pat.data hay.data

/-- Python `str.lower()` (ASCII case folding; the inputs here are ASCII commands). -/
def lower_str (s : String) : String := ⟨s.data.map Char.toLower⟩

/-- Lexicographic order on character lists by code point. -/
def charListLe : List Char → List Char → Bool
  | [], _ => true
  | _ :: _, [] => false
  | a :: as, b :: bs =>
      if a = b then charListLe as bs else decide (a.toNat < b.toNat)

/-- Python string comparison `x <= y` (lexicographic by code point). -/
def strLe (x y : String) : Bool := charListLe x.data y.data

/-- Python regex `\s` (ASCII whitespace as used in these command strings). -/
def pySpace (c : Char) : Bool :=
  c = ' ' || c = '\t' || c = '\n' || c = '\r' || c = '\x0b' || c = '\x0c'

/-- Python regex `\w` (ASCII word character). -/
def isWordChar (c : Char) : Bool := c.isAlphanum || c = '_'

/-- Anchored match of the word `w` followed by a `\b` word boundary
(`re.search` of `^w\b`): `w` is a prefix of `s` and the next character,
if any, is not a word character. -/
def wordStartMatch (w : String) (s : List Char) : Bool :=
  w.data.isPrefixOf s &&
    match s.drop w.data.length with
    | [] => true
    | c :: _ => !isWordChar c

/-- Matches `re.search` of `^(w1|w2|...)\b`. -/
def anyWordStart (ws : List String) (s : List Char) : Bool :=
  ws.any (fun w => wordStartMatch w s)

/-- Some alternative is a prefix at this position. -/
def altsAt (alts : List String) (s : List Char) : Bool :=
  alts.any (fun w => w.data.isPrefixOf s)

/-- One or more `\s` characters, then one of the alternatives
(the `\s+(a1|a2|...)` tail of a command pattern). -/
def spacesThenAlts (alts : List String) : List Char → Bool
  | [] => false
  | c :: rest => pySpace c && (altsAt alts rest || spacesThenAlts alts rest)

/-- Matches `re.search` of `^(h1|h2|...)\s+(a1|a2|...)`. -/
def headSpaceAlts (heads alts : List String) (s : List Char) : Bool :=
  heads.any (fun h => h.data.isPrefixOf s && spacesThenAlts alts (s.drop h.data.length))

/-- Matches `.*complete` anchored at this position: `complete` occurs after a
newline-free gap (`.` does not match `\n` in Python). -/
def seekCompleteTok : List Char → Bool
  | [] => false
  | c :: rest =>
      "complete".data.isPrefixOf (c :: rest) || (c != '\n' && seekCompleteTok rest)

/-- Matches `.*done.*complete` anchored at this position. -/
def seekDoneComplete : List Char → Bool
  | [] => false
  | c :: rest =>
      ("done".data.isPrefixOf (c :: rest) && seekCompleteTok ((c :: rest).drop 4))
        || (c != '\n' && seekDoneComplete rest)

/-- One or more `\s` characters then `.*done.*complete`. -/
def spacesThenSeek : List Char → Bool
  | [] => false
  | c :: rest => pySpace c && (seekDoneComplete rest || spacesThenSeek rest)

/-- Matches `re.search` of `^echo\s+.*done.*COMPLETE` with IGNORECASE (input lowered). -/
def echoDoneComplete (s : List Char) : Bool :=
  "echo".data.isPrefixOf s && spacesThenSeek (s.drop 4)

/-- Python `$`-anchored `re.search`: the pattern matches at the end of the
string, or just before a single trailing newline. -/
def endSearch (s : String) (pat : String) : Bool :=
  pat.data.isSuffixOf s.data || (pat ++ "\n").data.isSuffixOf s.data

/-! ### classify.py: compiled pattern tables -/

/-- Table `NAV_BASH_RE`: Bash commands that count as navigation (IGNORECASE). -/
def nav_bash_match (cmd : String) : Bool :=
  let s := (lower_str cmd).data
  anyWordStart ["ls", "find", "tree", "wc", "cat", "head", "tail", "stat", "file"] s
  || headSpaceAlts ["git"] ["log", "show", "diff", "blame", "status"] s
  || anyWordStart ["rg", "grep", "ag", "ack"] s

/-- Table `TASK_BASH_RE`: Bash commands that count as task work (IGNORECASE). -/
def task_bash_match (cmd : String) : Bool :=
  let s := (lower_str cmd).data
  headSpaceAlts ["git"] ["add", "commit", "push", "checkout", "branch", "merge", "rebase", "stash"] s
  || headSpaceAlts ["npm", "pnpm", "yarn", "bun"] ["test", "build", "run", "install"] s
  || headSpaceAlts ["just", "make", "cargo", "go"] ["test", "build", "check", "run"] s
  || anyWordStart ["pytest", "jest", "vitest", "mocha"] s
  || anyWordStart ["mkdir"] s
  || anyWordStart ["cp", "mv", "rm"] s
  || anyWordStart ["tsc", "eslint", "prettier"] s
  || anyWordStart ["python", "node", "deno", "bun"] s

/-- Table `BOILERPLATE_BASH_RE`: Bash commands that count as boilerplate (IGNORECASE). -/
def boilerplate_bash_match (cmd : String) : Bool :=
  let s := (lower_str cmd).data
  headSpaceAlts ["nancy"] ["inbox", "msg", "archive", "status"] s
  || echoDoneComplete s

/-! ### Data model: events -/

/-- One parsed log event.  Python events are dicts with kind-dependent keys;
missing optional keys are `none`, and the `category`/`phase` keys added by the
classifier default to `""` before enrichment. -/
structure Event where
  seq : Nat := 0
  type : String := ""
  session_id : Option String := none
  tool_name : String := ""
  tool_id : Option String := none
  file_path : Option String := none
  command : Option String := none
  message_id : Option String := none
  input_tokens : Nat := 0
  output_tokens : Nat := 0
  cache_creation_input_tokens : Nat := 0
  cache_read_input_tokens : Nat := 0
  text_length : Nat := 0
  source : Option String := none
  cwd : Option String := none
  model : Option String := none
  tools : List String := []
  mcp_servers : List String := []
  category : String := ""
  phase : String := ""
  deriving DecidableEq, Repr, Inhabited

/-! ### classify.py: first-edit detection -/

/-- Embeds `_EXCLUDED_EDIT_PATTERNS` and `_is_excluded_file`: the path matches one of
the exclusion regexes by `re.search`. -/
def is_excluded_file (path : String) : Bool :=
  endSearch path "ISSUES.md"
  || endSearch path "COMPLETE"
  || nancyInternalSearch path.data
  || endSearch path "config.json"
  || endSearch path "token-usage.json"
where
  /-- Matches `re.search` of `\.nancy/(?!tasks/)`: some occurrence of `.nancy/` is not
  immediately followed by `tasks/`. -/
  nancyInternalSearch : List Char → Bool
    | [] => false
    | c :: rest =>
        (".nancy/".data.isPrefixOf (c :: rest)
          && !(".nancy/tasks/".data.isPrefixOf (c :: rest)))
        || nancyInternalSearch rest

/-- Embeds `_find_first_edit`: seq of the first `Edit`/`Write` tool call whose
(`None`-normalized) file path is not excluded. -/
def find_first_edit : List Event → Option Nat
  | [] => none
  | e :: rest =>
      if e.type = "tool_call" ∧ (e.tool_name = "Edit" ∨ e.tool_name = "Write")
          ∧ ¬ is_excluded_file (e.file_path.getD "") then
        some e.seq
      else
        find_first_edit rest

/-- The loop condition of `_find_first_edit` as a predicate: a `tool_call`
event using an edit-capable tool whose path matches no exclusion pattern. -/
def qualifying_edit (e : Event) : Bool :=
  e.type == "tool_call" && (e.tool_name == "Edit" || e.tool_name == "Write")
    && !(is_excluded_file (e.file_path.getD ""))

/-! ### classify.py: category and phase assignment -/

/-- Embeds `_classify_tool_call`: ordered rule matching, first rule wins. -/
def classify_tool_call (e : Event) : String :=
  let name := e.tool_name
  let fp := e.file_path.getD ""
  let cmd := e.command.getD ""
  if name = "mcp__mcp-files__read_symbol" then "fmm_navigation"
  else if name = "Read" ∧ strOccurs fp ".fmm" then "fmm_navigation"
  else if name = "Bash" ∧ strOccurs (lower_str cmd) "fmm"
      ∧ (strOccurs (lower_str cmd) "search" ∨ strOccurs (lower_str cmd) "grep") then
    "fmm_navigation"
  else if name = "TodoWrite" ∨ name = "KillShell" then "boilerplate"
  else if name = "Skill" then
    match e.command with
    | some skill =>
        if skill ≠ "" ∧ strOccurs skill "check-directives" then "boilerplate"
        else if skill ≠ "" ∧ strOccurs skill "nancy" then "boilerplate"
        else "other"
    | none => "other"
  else if name = "Bash" ∧ boilerplate_bash_match cmd then "boilerplate"
  else if name = "Edit" ∨ name = "Write" then "task_work"
  else if name = "Bash" ∧ task_bash_match cmd then "task_work"
  else if name = "Read" ∨ name = "Grep" ∨ name = "Glob" ∨ name = "WebFetch" then "navigation"
  else if name = "Bash" ∧ nav_bash_match cmd then "navigation"
  else if name = "Task" then "navigation"
  else if name = "TaskOutput" then "navigation"
  else if "mcp__linear".data.isPrefixOf name.data then "boilerplate"
  else if "mcp__context7".data.isPrefixOf name.data then "navigation"
  else if name = "Bash" then "navigation"
  else "other"

/-- Category dispatch on the event kind (body of the `classify_events` loop). -/
def category_for (e : Event) : String :=
  if e.type = "tool_call" then classify_tool_call e
  else if e.type = "token_usage" then "token_usage"
  else if e.type = "init" then "boilerplate"
  else if e.type = "user_message" then "other"
  else if e.type = "assistant_text" then "other"
  else "other"

/-- Phase dispatch relative to the first-edit boundary. -/
def phase_for (k : Option Nat) (e : Event) : String :=
  match k with
  | some b => if e.seq < b then "nav" else "work"
  | none => "nav"

/-- Embeds `classify_events`: enrich every event with `category` and `phase`, and
return the first-edit seq. -/
def classify_events (events : List Event) : List Event × Option Nat :=
  let first_edit_seq := find_first_edit events
  (events.map (fun e =>
    { e with category := category_for e, phase := phase_for first_edit_seq e }),
   first_edit_seq)

/-! ### classify.py: phase summary -/

/-- One per-kind token counter dict. -/
structure Tokens where
  input : Nat := 0
  output : Nat := 0
  cache_create : Nat := 0
  cache_read : Nat := 0
  deriving DecidableEq, Repr

/-- Componentwise addition of token counters. -/
def Tokens.plus (a b : Tokens) : Tokens :=
  { input := a.input + b.input, output := a.output + b.output,
    cache_create := a.cache_create + b.cache_create,
    cache_read := a.cache_read + b.cache_read }

/-- The token payload of a `token_usage` event. -/
def tokensOf (e : Event) : Tokens :=
  { input := e.input_tokens, output := e.output_tokens,
    cache_create := e.cache_creation_input_tokens,
    cache_read := e.cache_read_input_tokens }

/-- Embeds `_token_sum`: input + output only; cache counters are excluded. -/
def token_sum (d : Tokens) : Nat := d.input + d.output

/-- Python truthiness of `event.get("message_id")`: a present, non-empty id. -/
def msgTruthy (e : Event) : Bool :=
  match e.message_id with
  | some m => m ≠ ""
  | none => false

/-- The message id string (only meaningful when `msgTruthy`). -/
def msgStr (e : Event) : String := e.message_id.getD ""

/-- Accumulator state of the `compute_phase_summary` loop. -/
structure SummaryState where
  nav_tools : List Event := []
  work_tools : List Event := []
  nav_tokens : Tokens := {}
  work_tokens : Tokens := {}
  total_tokens : Tokens := {}
  nav_files : Finset String := ∅
  work_files : Finset String := ∅
  nav_fmm_count : Nat := 0
  nav_raw_count : Nat := 0
  seen_message_ids : Finset String := ∅

/-- One iteration of the `compute_phase_summary` loop. -/
def summary_step (s : SummaryState) (e : Event) : SummaryState :=
  if e.type = "token_usage" then
    if msgTruthy e ∧ msgStr e ∈ s.seen_message_ids then s
    else
      let seen2 := if msgTruthy e then insert (msgStr e) s.seen_message_ids
                   else s.seen_message_ids
      let tk := tokensOf e
      if e.phase = "nav" then
        { s with seen_message_ids := seen2, total_tokens := s.total_tokens.plus tk,
                 nav_tokens := s.nav_tokens.plus tk }
      else
        { s with seen_message_ids := seen2, total_tokens := s.total_tokens.plus tk,
                 work_tokens := s.work_tokens.plus tk }
  else if e.type = "tool_call" then
    let fp := e.file_path.getD ""
    if e.phase = "nav" then
      { s with nav_tools := s.nav_tools ++ [e],
               nav_files := if fp ≠ "" then insert fp s.nav_files else s.nav_files,
               nav_fmm_count :=
                 if e.category = "fmm_navigation" then s.nav_fmm_count + 1
                 else s.nav_fmm_count,
               nav_raw_count :=
                 if e.category = "fmm_navigation" then s.nav_raw_count
                 else if e.category = "navigation" then s.nav_raw_count + 1
                 else s.nav_raw_count }
    else
      { s with work_tools := s.work_tools ++ [e],
               work_files := if fp ≠ "" then insert fp s.work_files else s.work_files }
  else s

/-- Embeds `_tool_counts` (extensionally: occurrences of each tool name). -/
def tool_counts_of (l : List Event) : String → Nat :=
  fun n => l.countP (fun t => t.tool_name == n)

/-- The `nav_phase` record of a phase summary. -/
structure NavPhase where
  tool_counts : String → Nat
  tool_call_count : Nat
  tokens : Tokens
  token_total : Nat
  unique_files : List String
  unique_file_count : Nat
  reads : Nat
  greps : Nat
  fmm_lookups : Nat
  raw_nav_lookups : Nat

/-- The `work_phase` record of a phase summary. -/
structure WorkPhase where
  tool_counts : String → Nat
  tool_call_count : Nat
  tokens : Tokens
  token_total : Nat
  unique_files : List String
  unique_file_count : Nat

/-- The `totals` record of a phase summary. -/
structure Totals where
  tokens : Tokens
  token_total : Nat
  tool_calls : Nat
  deriving DecidableEq, Repr

/-- The result of `compute_phase_summary`. -/
structure PhaseSummary where
  nav_phase : NavPhase
  work_phase : WorkPhase
  totals : Totals
  first_edit_seq : Option Nat
  has_edits : Bool

/-- Embeds `compute_phase_summary`: fold the loop over the events, then package. -/
def compute_phase_summary (events : List Event) (first_edit_seq : Option Nat) :
    PhaseSummary :=
  let s := events.foldl summary_step {}
  { nav_phase :=
      { tool_counts := tool_counts_of s.nav_tools,
        tool_call_count := s.nav_tools.length,
        tokens := s.nav_tokens,
        token_total := token_sum s.nav_tokens,
        unique_files := Finset.sort (· ≤ ·) s.nav_files,
        unique_file_count := s.nav_files.card,
        reads := s.nav_tools.countP (fun t => t.tool_name == "Read"),
        greps := s.nav_tools.countP
          (fun t => t.tool_name == "Grep" || t.tool_name == "Glob"),
        fmm_lookups := s.nav_fmm_count,
        raw_nav_lookups := s.nav_raw_count },
    work_phase :=
      { tool_counts := tool_counts_of s.work_tools,
        tool_call_count := s.work_tools.length,
        tokens := s.work_tokens,
        token_total := token_sum s.work_tokens,
        unique_files := Finset.sort (· ≤ ·) s.work_files,
        unique_file_count := s.work_files.card },
    totals :=
      { tokens := s.total_tokens,
        token_total := token_sum s.total_tokens,
        tool_calls := s.nav_tools.length + s.work_tools.length },
    first_edit_seq := first_edit_seq,
    has_edits := first_edit_seq.isSome }

/-! ### parse_logs.py: extraction model

The line-delimited JSON input is modelled as a list of already-decoded raw
records; malformed and blank lines (dropped by the parser before any event is
produced) correspond to the `bad` record, which produces no event. -/

/-- A `usage` block (absent or falsy usage dicts are `Option.none` upstream). -/
structure Usage where
  input_tokens : Nat := 0
  output_tokens : Nat := 0
  cache_creation_input_tokens : Nat := 0
  cache_read_input_tokens : Nat := 0
  deriving DecidableEq, Repr

/-- The argument mapping of a tool-use block (only the keys the extractor
reads; absent keys are `none` / `[]`). -/
structure ToolArgs where
  file_path : Option String := none
  pattern : Option String := none
  path : Option String := none
  file_paths : List String := []
  command : Option String := none
  skill : Option String := none
  prompt : Option String := none
  deriving DecidableEq, Repr

/-- One content block of an assistant message. -/
inductive ContentBlock where
  | toolUse (name : String) (id : Option String) (args : ToolArgs)
  | textBlock (text : String)
  | otherBlock
  deriving DecidableEq, Repr

/-- One decoded log line. -/
inductive RawRecord where
  | system (subtype : String) (sessionId cwd model : Option String)
      (tools mcpServers : List String)
  | assistant (sessionId msgId : Option String) (usage : Option Usage)
      (content : List ContentBlock)
  | streamEvent (sessionId : Option String) (eventType : String)
      (msgId : Option String) (usage : Option Usage)
  | user (sessionId : Option String)
  | bad
  deriving DecidableEq, Repr

/-- Embeds `_extract_file_path`. -/
def extract_file_path (tool_name : String) (args : ToolArgs) : Option String :=
  if tool_name = "Read" ∨ tool_name = "Edit" ∨ tool_name = "Write" then args.file_path
  else if tool_name = "Glob" then args.pattern
  else if tool_name = "Grep" then args.path
  else if tool_name = "mcp__mcp-files__read_symbol" then args.file_paths.head?
  else none

/-- Embeds `_extract_command`. -/
def extract_command (tool_name : String) (args : ToolArgs) : Option String :=
  if tool_name = "Bash" then args.command
  else if tool_name = "Skill" then args.skill
  else if tool_name = "Task" then some ((args.prompt.getD "").take 200)
  else none

/-- Events emitted for the content blocks of one assistant record
(non-tool, non-text blocks are skipped and consume no seq). -/
def parse_blocks (sid : Option String) : Nat → List ContentBlock → List Event
  | _, [] => []
  | seq, .toolUse name tid args :: rest =>
      { seq := seq, type := "tool_call", session_id := sid, tool_name := name,
        tool_id := tid, file_path := extract_file_path name args,
        command := extract_command name args }
        :: parse_blocks sid (seq + 1) rest
  | seq, .textBlock t :: rest =>
      { seq := seq, type := "assistant_text", session_id := sid,
        text_length := t.length }
        :: parse_blocks sid (seq + 1) rest
  | seq, .otherBlock :: rest => parse_blocks sid seq rest

/-- Events emitted for one raw record, numbered from `seq`. -/
def record_events (seq : Nat) : RawRecord → List Event
  | .system subtype sid cwd model tools servers =>
      if subtype = "init" then
        [{ seq := seq, type := "init", session_id := sid, cwd := cwd,
           model := model, tools := tools, mcp_servers := servers }]
      else []
  | .assistant sid msgId usage content =>
      let usageEvents : List Event :=
        match usage with
        | some u =>
            [{ seq := seq, type := "token_usage", session_id := sid,
               message_id := msgId, input_tokens := u.input_tokens,
               output_tokens := u.output_tokens,
               cache_creation_input_tokens := u.cache_creation_input_tokens,
               cache_read_input_tokens := u.cache_read_input_tokens }]
        | none => []
      usageEvents ++ parse_blocks sid (seq + usageEvents.length) content
  | .streamEvent sid eventType msgId usage =>
      if eventType = "message_start" then
        match usage with
        | some u =>
            [{ seq := seq, type := "token_usage", session_id := sid,
               source := some "stream_message_start", message_id := msgId,
               input_tokens := u.input_tokens, output_tokens := u.output_tokens,
               cache_creation_input_tokens := u.cache_creation_input_tokens,
               cache_read_input_tokens := u.cache_read_input_tokens }]
        | none => []
      else []
  | .user sid => [{ seq := seq, type := "user_message", session_id := sid }]
  | .bad => []

/-- Embeds `parse_log_file` over decoded records, threading the global seq counter
(every emitted event consumes exactly one seq value). -/
def parse_records (seq : Nat) : List RawRecord → List Event
  | [] => []
  | r :: rest =>
      let es := record_events seq r
      es ++ parse_records (seq + es.length) rest

/-- Embeds `parse_log_file` (the single-pass extraction starting at seq 0). -/
def parse_log_file (records : List RawRecord) : List Event :=
  parse_records 0 records

/-! ### compare.py: cross-run aggregation -/

/-- Python `round` (half-to-even rounding, half to even), modelled on exact
rationals; the source applies it to float quotients of token counts. -/
def roundHalfEven (q : ℚ) : ℤ :=
  let f := ⌊q⌋
  let r := q - (f : ℚ)
  if r < 1/2 then f
  else if 1/2 < r then f + 1
  else if f % 2 = 0 then f else f + 1

/-- Accumulator of the `_aggregate_iterations` loop. -/
structure AggState where
  nav_reads : Nat := 0
  nav_greps : Nat := 0
  nav_unique_files : Finset String := ∅
  nav_tokens : Nat := 0
  total_tokens : Nat := 0
  fmm_lookups : Nat := 0
  raw_nav_lookups : Nat := 0
  has_edits : Bool := false
  first_edit_iteration : Option String := none
  first_edit_pct : Option ℤ := none

/-- One iteration of the `_aggregate_iterations` loop. -/
def agg_step (a : AggState) (p : String × PhaseSummary) : AggState :=
  let nav := p.2.nav_phase
  let a1 : AggState :=
    { a with
      nav_reads := a.nav_reads + nav.reads,
      nav_greps := a.nav_greps + nav.greps,
      nav_unique_files := a.nav_unique_files ∪ nav.unique_files.toFinset,
      nav_tokens := a.nav_tokens + nav.token_total,
      total_tokens := a.total_tokens + p.2.totals.token_total,
      fmm_lookups := a.fmm_lookups + nav.fmm_lookups,
      raw_nav_lookups := a.raw_nav_lookups + nav.raw_nav_lookups }
  if p.2.has_edits then
    if a1.first_edit_iteration = none then
      { a1 with
        has_edits := true
        first_edit_iteration := some p.1
        first_edit_pct :=
          if p.2.totals.token_total > 0 then
            some (roundHalfEven
              ((nav.token_total : ℚ) / (p.2.totals.token_total : ℚ) * 100))
          else a1.first_edit_pct }
    else { a1 with has_edits := true }
  else a1

/-- Embeds `sorted(per_iteration.items())`: dict keys are unique, so sorting the
pairs by name reproduces the Python sort of the `(name, summary)` tuples
exactly (with all keys distinct, every correct sort yields the same list). -/
def sort_runs (l : List (String × PhaseSummary)) : List (String × PhaseSummary) :=
  l.insertionSort (fun x y => strLe x.1 y.1)

/-- The result record of `_aggregate_iterations`. -/
structure Aggregate where
  iteration_count : Nat
  nav_reads : Nat
  nav_greps : Nat
  nav_unique_files : List String
  nav_unique_file_count : Nat
  nav_tokens : Nat
  total_tokens : Nat
  fmm_lookups : Nat
  raw_nav_lookups : Nat
  has_edits : Bool
  first_edit_iteration : Option String
  first_edit_pct : Option ℤ
  nav_pct : ℤ
  sidecar_ratio : String

/-- Embeds `_aggregate_iterations`. -/
def aggregate_iterations (per_iteration : List (String × PhaseSummary)) :
    Aggregate :=
  let a := (sort_runs per_iteration).foldl agg_step {}
  let total_nav := a.fmm_lookups + a.raw_nav_lookups
  { iteration_count := per_iteration.length,
    nav_reads := a.nav_reads,
    nav_greps := a.nav_greps,
    nav_unique_files := Finset.sort (· ≤ ·) a.nav_unique_files,
    nav_unique_file_count := a.nav_unique_files.card,
    nav_tokens := a.nav_tokens,
    total_tokens := a.total_tokens,
    fmm_lookups := a.fmm_lookups,
    raw_nav_lookups := a.raw_nav_lookups,
    has_edits := a.has_edits,
    first_edit_iteration := a.first_edit_iteration,
    first_edit_pct := a.first_edit_pct,
    nav_pct :=
      if a.total_tokens > 0 then
        roundHalfEven ((a.nav_tokens : ℚ) / (a.total_tokens : ℚ) * 100)
      else 0,
    sidecar_ratio :=
      if total_nav > 0 then Nat.repr a.fmm_lookups ++ "/" ++ Nat.repr total_nav
      else "n/a" }

/-! ### Specification-side definitions

These restate, in direct form, what the spec asserts about the code; the
theorems below compare them with the embedded functions. -/

/-- First-occurrence filter for `token_usage` deduplication: given the set of
already-seen ids, keep every event except later `token_usage` duplicates of a
truthy (present, non-empty) message id. -/
def dedup_token_events (seen : Finset String) : List Event → List Event
  | [] => []
  | e :: rest =>
      if e.type = "token_usage" ∧ msgTruthy e then
        if msgStr e ∈ seen then dedup_token_events seen rest
        else e :: dedup_token_events (insert (msgStr e) seen) rest
      else e :: dedup_token_events seen rest

/-- Componentwise token sum of a list of events. -/
def tokens_total (l : List Event) : Tokens :=
  l.foldr (fun e a => (tokensOf e).plus a) {}

/-- The `token_usage` events that survive deduplication. -/
def counted_token_events (evs : List Event) : List Event :=
  (dedup_token_events ∅ evs).filter (fun e => e.type == "token_usage")

/-- The counted `token_usage` events attributed to the nav phase. -/
def counted_nav_token_events (evs : List Event) : List Event :=
  (dedup_token_events ∅ evs).filter
    (fun e => e.type == "token_usage" && e.phase == "nav")

/-- The counted `token_usage` events attributed to the work phase. -/
def counted_work_token_events (evs : List Event) : List Event :=
  (dedup_token_events ∅ evs).filter
    (fun e => e.type == "token_usage" && !(e.phase == "nav"))

/-- Set union of the per-run nav-phase unique-file sets. -/
def nav_files_union (l : List (String × PhaseSummary)) : Finset String :=
  l.foldr (fun p acc => p.2.nav_phase.unique_files.toFinset ∪ acc) ∅

/-! ### Concrete inputs used by the claims -/

/-- A bare `tool_call` event. -/
def toolCallEv (seq : Nat) (name : String) (fp : Option String) : Event :=
  { seq := seq, type := "tool_call", tool_name := name, file_path := fp }

/-- A classified `tool_call` event (category and phase already assigned). -/
def classifiedToolEv (seq : Nat) (name : String) (fp : Option String)
    (cat ph : String) : Event :=
  { seq := seq, type := "tool_call", tool_name := name, file_path := fp,
    category := cat, phase := ph }

/-- A classified `token_usage` event. -/
def classifiedTokEv (seq inp out : Nat) (mid : Option String) (ph : String) :
    Event :=
  { seq := seq, type := "token_usage", message_id := mid, input_tokens := inp,
    output_tokens := out, category := "token_usage", phase := ph }

/-- The raw records of the end-to-end scenario of spec §8: init, then an
assistant turn reading `/src/main.py` with usage 500/100, then an assistant
turn editing `/src/main.py` with usage 400/200. -/
def scenarioRecords : List RawRecord :=
  [ .system "init" (some "sess-1") (some "/proj") (some "model-x") [] [],
    .assistant (some "sess-1") (some "m1")
      (some { input_tokens := 500, output_tokens := 100 })
      [.toolUse "Read" (some "t1") { file_path := some "/src/main.py" }],
    .assistant (some "sess-1") (some "m2")
      (some { input_tokens := 400, output_tokens := 200 })
      [.toolUse "Edit" (some "t2") { file_path := some "/src/main.py" }] ]

/-- The phase summary of the §8 scenario after extraction, classification and
summarization. -/
def scenarioSummary : PhaseSummary :=
  let ck := classify_events (parse_log_file scenarioRecords)
  compute_phase_summary ck.1 ck.2

/-- A minimal phase summary carrying only the fields the aggregator reads
(mirrors the per-run summaries in the aggregation example). -/
def exampleRun (files : List String) (navTT workTT : Nat) (fe : Option Nat) :
    PhaseSummary :=
  { nav_phase :=
      { tool_counts := fun _ => 0, tool_call_count := 0,
        tokens := { input := navTT }, token_total := navTT,
        unique_files := files, unique_file_count := files.length,
        reads := 0, greps := 0, fmm_lookups := 0, raw_nav_lookups := 0 },
    work_phase :=
      { tool_counts := fun _ => 0, tool_call_count := 0,
        tokens := { input := workTT }, token_total := workTT,
        unique_files := [], unique_file_count := 0 },
    totals := { tokens := { input := navTT + workTT },
                token_total := navTT + workTT, tool_calls := 0 },
    first_edit_seq := fe,
    has_edits := fe.isSome }

/-! ### Lemmas about first-edit detection and classification -/

theorem qualifying_edit_iff (e : Event) :
    qualifying_edit e = true ↔
      e.type = "tool_call" ∧ (e.tool_name = "Edit" ∨ e.tool_name = "Write")
        ∧ ¬ is_excluded_file (e.file_path.getD "") = true := by
  simp [qualifying_edit, and_assoc]

theorem find_first_edit_eq_found (evs : List Event) :
    find_first_edit evs = (evs.find? qualifying_edit).map Event.seq := by
  induction evs with
  | nil => rfl
  | cons e rest ih =>
    by_cases h : e.type = "tool_call" ∧ (e.tool_name = "Edit" ∨ e.tool_name = "Write")
        ∧ ¬ is_excluded_file (e.file_path.getD "") = true
    · rw [find_first_edit, if_pos h,
        List.find?_cons_of_pos _ ((qualifying_edit_iff e).mpr h)]
      rfl
    · have hq : ¬ qualifying_edit e = true := fun hc => h ((qualifying_edit_iff e).mp hc)
      rw [find_first_edit, if_neg h, List.find?_cons_of_neg _ hq]
      exact ih

theorem find_first_edit_min (evs : List Event) :
    List.Pairwise (fun a b => a.seq < b.seq) evs →
      ∀ k, find_first_edit evs = some k →
        (∃ e ∈ evs, qualifying_edit e = true ∧ e.seq = k)
        ∧ ∀ e ∈ evs, qualifying_edit e = true → k ≤ e.seq := by
  induction evs with
  | nil => intro _ k h; simp [find_first_edit] at h
  | cons e rest ih =>
    intro hs k h
    obtain ⟨hlt, hrest⟩ := List.pairwise_cons.mp hs
    by_cases hc : e.type = "tool_call" ∧ (e.tool_name = "Edit" ∨ e.tool_name = "Write")
        ∧ ¬ is_excluded_file (e.file_path.getD "") = true
    · rw [find_first_edit, if_pos hc] at h
      obtain rfl : e.seq = k := Option.some.inj h
      refine ⟨⟨e, List.mem_cons_self e rest, (qualifying_edit_iff e).mpr hc, rfl⟩, ?_⟩
      intro f hf _
      rcases List.mem_cons.mp hf with rfl | hf'
      · exact Nat.le_refl _
      · exact Nat.le_of_lt (hlt f hf')
    · rw [find_first_edit, if_neg hc] at h
      obtain ⟨⟨f, hf, hqf, hfk⟩, hmin⟩ := ih hrest k h
      refine ⟨⟨f, List.mem_cons_of_mem e hf, hqf, hfk⟩, ?_⟩
      intro g hg hqg
      rcases List.mem_cons.mp hg with rfl | hg'
      · exact absurd ((qualifying_edit_iff g).mp hqg) hc
      · exact hmin g hg' hqg

/-- C1: the first-edit boundary is the seq of the first (in seq order)
`tool_call` event using Edit or Write whose file path matches none of the
exclusion patterns, `none` when no such event exists; on
`[Edit "/proj/ISSUES.md" (seq 0), Edit "/src/app.py" (seq 1)]` the boundary
is 1, and an Edit under `.nancy/tasks/` qualifies as a boundary. -/
theorem C1_first_edit_boundary :
    (∀ evs : List Event,
      find_first_edit evs = (evs.find? qualifying_edit).map Event.seq)
    ∧ (∀ evs : List Event, List.Pairwise (fun a b => a.seq < b.seq) evs →
        ∀ k, find_first_edit evs = some k →
          (∃ e ∈ evs, qualifying_edit e = true ∧ e.seq = k)
          ∧ ∀ e ∈ evs, qualifying_edit e = true → k ≤ e.seq)
    ∧ (∀ evs : List Event,
        (find_first_edit evs = none ↔ ∀ e ∈ evs, ¬ qualifying_edit e = true))
    ∧ find_first_edit
        [toolCallEv 0 "Edit" (some "/proj/ISSUES.md"),
         toolCallEv 1 "Edit" (some "/src/app.py")] = some 1
    ∧ qualifying_edit (toolCallEv 3 "Edit" (some "/proj/.nancy/tasks/T1/main.py")) = true := by
  refine ⟨find_first_edit_eq_found, find_first_edit_min, ?_, by decide, by decide⟩
  intro evs
  simp [find_first_edit_eq_found, Option.map_eq_none', List.find?_eq_none]

/-- Witness for C1 at a concrete event list. -/
theorem C1_first_edit_boundary_witness :
    (∃ e ∈ [toolCallEv 0 "Edit" (some "/proj/ISSUES.md"),
            toolCallEv 1 "Edit" (some "/src/app.py")],
        qualifying_edit e = true ∧ e.seq = 1)
    ∧ ∀ e ∈ [toolCallEv 0 "Edit" (some "/proj/ISSUES.md"),
             toolCallEv 1 "Edit" (some "/src/app.py")],
        qualifying_edit e = true → 1 ≤ e.seq :=
  C1_first_edit_boundary.2.1
    [toolCallEv 0 "Edit" (some "/proj/ISSUES.md"),
     toolCallEv 1 "Edit" (some "/src/app.py")]
    (by decide) 1 (by decide)

/-- C2: with boundary `k`, classification assigns phase `nav` to every event
with `seq < k` and `work` to every event with `seq >= k`; with no boundary,
every event gets phase `nav`. -/
theorem C2_phase_monotone :
    ∀ evs : List Event,
      (∀ b, (classify_events evs).2 = some b →
        ∀ e ∈ (classify_events evs).1,
          (e.seq < b → e.phase = "nav") ∧ (b ≤ e.seq → e.phase = "work"))
      ∧ ((classify_events evs).2 = none →
          ∀ e ∈ (classify_events evs).1, e.phase = "nav") := by
  intro evs
  constructor
  · intro b hb e he
    simp only [classify_events] at hb he
    obtain ⟨e0, _, rfl⟩ := List.mem_map.mp he
    constructor
    · intro hlt
      show phase_for (find_first_edit evs) e0 = "nav"
      rw [hb, phase_for, if_pos hlt]
    · intro hge
      show phase_for (find_first_edit evs) e0 = "work"
      rw [hb, phase_for, if_neg (Nat.not_lt.mpr hge)]
  · intro hb e he
    simp only [classify_events] at hb he
    obtain ⟨e0, _, rfl⟩ := List.mem_map.mp he
    show phase_for (find_first_edit evs) e0 = "nav"
    rw [hb, phase_for]

/-- Witness for C2 at a concrete event list. -/
theorem C2_phase_monotone_witness :
    ((toolCallEv 0 "Read" (some "/a.py")).seq < 1 →
      ((classify_events [toolCallEv 0 "Read" (some "/a.py"),
                         toolCallEv 1 "Edit" (some "/a.py")]).1.headI).phase = "nav") :=
  fun h =>
    (((C2_phase_monotone
        [toolCallEv 0 "Read" (some "/a.py"), toolCallEv 1 "Edit" (some "/a.py")]).1
      1 (by decide)
      ((classify_events [toolCallEv 0 "Read" (some "/a.py"),
                         toolCallEv 1 "Edit" (some "/a.py")]).1.headI)
      (by decide)).1) (by exact h)

/-- C4: every `tool_call` meeting the sidecar-navigation condition (symbol
lookup tool, Read of a path containing `.fmm`, or a Bash command containing
`fmm` with `search` or `grep` case-insensitively) classifies as
`fmm_navigation`, taking precedence over the generic Read rule. -/
theorem C4_fmm_rule_priority :
    (∀ e : Event, e.type = "tool_call" →
      (e.tool_name = "mcp__mcp-files__read_symbol"
        ∨ (e.tool_name = "Read" ∧ strOccurs (e.file_path.getD "") ".fmm" = true)
        ∨ (e.tool_name = "Bash"
            ∧ strOccurs (lower_str (e.command.getD "")) "fmm" = true
            ∧ (strOccurs (lower_str (e.command.getD "")) "search" = true
                ∨ strOccurs (lower_str (e.command.getD "")) "grep" = true))) →
      classify_tool_call e = "fmm_navigation")
    ∧ classify_tool_call (toolCallEv 0 "Read" (some "/src/main.ts.fmm")) = "fmm_navigation"
    ∧ classify_tool_call (toolCallEv 0 "Read" (some "/src/main.ts")) = "navigation" := by
  refine ⟨?_, by decide, by decide⟩
  intro e _ hdisj
  rcases hdisj with h | ⟨h1, h2⟩ | ⟨h1, h2, h3⟩
  · simp [classify_tool_call, h]
  · simp [classify_tool_call, h1, h2,
      show ("Read" : String) ≠ "mcp__mcp-files__read_symbol" from by decide]
  · simp [classify_tool_call, h1, h2, h3,
      show ("Bash" : String) ≠ "mcp__mcp-files__read_symbol" from by decide,
      show ("Bash" : String) ≠ "Read" from by decide]

/-- Witness for C4 at a concrete sidecar Read that also matches the generic
Read rule. -/
theorem C4_fmm_rule_priority_witness :
    classify_tool_call (toolCallEv 2 "Read" (some "/src/app.ts.fmm")) = "fmm_navigation" :=
  C4_fmm_rule_priority.1 (toolCallEv 2 "Read" (some "/src/app.ts.fmm"))
    (by decide) (Or.inr (Or.inl (by decide)))

/-- C10: an Edit/Write `tool_call` with a missing, null or empty file path
qualifies as the first-edit boundary (the empty path matches no exclusion
pattern), so the scan returns its seq when it comes first. -/
theorem C10_missing_path_qualifies :
    (∀ e : Event, e.type = "tool_call" →
      (e.tool_name = "Edit" ∨ e.tool_name = "Write") →
      (e.file_path = none ∨ e.file_path = some "") →
      ∀ rest, find_first_edit (e :: rest) = some e.seq)
    ∧ is_excluded_file "" = false := by
  refine ⟨?_, by decide⟩
  intro e htype hname hfp rest
  have hget : e.file_path.getD "" = "" := by
    rcases hfp with h | h <;> rw [h] <;> rfl
  rw [find_first_edit, if_pos]
  exact ⟨htype, hname, by rw [hget]; decide⟩

/-- Witness for C10 at a concrete Write event with no path. -/
theorem C10_missing_path_qualifies_witness :
    find_first_edit [({ seq := 5, type := "tool_call", tool_name := "Write" } : Event)] =
      some 5 :=
  C10_missing_path_qualifies.1
    { seq := 5, type := "tool_call", tool_name := "Write" }
    (by decide) (Or.inr (by decide)) (Or.inl (by decide)) []

/-! ### Token algebra -/

theorem Tokens.plus_assoc (a b c : Tokens) :
    (a.plus b).plus c = a.plus (b.plus c) := by
  simp [Tokens.plus, Nat.add_assoc]

theorem Tokens.zero_plus (t : Tokens) : Tokens.plus {} t = t := by
  cases t; simp [Tokens.plus]

theorem Tokens.plus_zero (t : Tokens) : Tokens.plus t {} = t := by
  cases t; simp [Tokens.plus]

theorem Tokens.plus_left_comm (a b c : Tokens) :
    a.plus (b.plus c) = b.plus (a.plus c) := by
  simp [Tokens.plus]; omega

theorem token_sum_plus (a b : Tokens) :
    token_sum (a.plus b) = token_sum a + token_sum b := by
  simp [token_sum, Tokens.plus]; omega

theorem tokens_total_cons (e : Event) (l : List Event) :
    tokens_total (e :: l) = (tokensOf e).plus (tokens_total l) := rfl

/-! ### Step lemmas for the phase-summary loop -/

theorem step_token_skip (s : SummaryState) (e : Event)
    (h1 : e.type = "token_usage") (h2 : msgTruthy e = true)
    (h3 : msgStr e ∈ s.seen_message_ids) :
    summary_step s e = s := by
  simp [summary_step, h1, h2, h3]

theorem step_token_nav_truthy (s : SummaryState) (e : Event)
    (h1 : e.type = "token_usage") (h2 : msgTruthy e = true)
    (h3 : msgStr e ∉ s.seen_message_ids) (hp : e.phase = "nav") :
    summary_step s e =
      { s with
        seen_message_ids := insert (msgStr e) s.seen_message_ids
        total_tokens := s.total_tokens.plus (tokensOf e)
        nav_tokens := s.nav_tokens.plus (tokensOf e) } := by
  simp [summary_step, h1, h2, h3, hp]

theorem step_token_nav_plain (s : SummaryState) (e : Event)
    (h1 : e.type = "token_usage") (h2 : msgTruthy e = false)
    (hp : e.phase = "nav") :
    summary_step s e =
      { s with
        total_tokens := s.total_tokens.plus (tokensOf e)
        nav_tokens := s.nav_tokens.plus (tokensOf e) } := by
  simp [summary_step, h1, h2, hp]

theorem step_token_work_truthy (s : SummaryState) (e : Event)
    (h1 : e.type = "token_usage") (h2 : msgTruthy e = true)
    (h3 : msgStr e ∉ s.seen_message_ids) (hp : ¬ e.phase = "nav") :
    summary_step s e =
      { s with
        seen_message_ids := insert (msgStr e) s.seen_message_ids
        total_tokens := s.total_tokens.plus (tokensOf e)
        work_tokens := s.work_tokens.plus (tokensOf e) } := by
  simp [summary_step, h1, h2, h3, hp]

theorem step_token_work_plain (s : SummaryState) (e : Event)
    (h1 : e.type = "token_usage") (h2 : msgTruthy e = false)
    (hp : ¬ e.phase = "nav") :
    summary_step s e =
      { s with
        total_tokens := s.total_tokens.plus (tokensOf e)
        work_tokens := s.work_tokens.plus (tokensOf e) } := by
  simp [summary_step, h1, h2, hp]

theorem step_tool_nav (s : SummaryState) (e : Event)
    (h1 : e.type = "tool_call") (hp : e.phase = "nav") :
    summary_step s e =
      { s with
        nav_tools := s.nav_tools ++ [e]
        nav_files :=
          if e.file_path.getD "" ≠ "" then insert (e.file_path.getD "") s.nav_files
          else s.nav_files
        nav_fmm_count :=
          if e.category = "fmm_navigation" then s.nav_fmm_count + 1
          else s.nav_fmm_count
        nav_raw_count :=
          if e.category = "fmm_navigation" then s.nav_raw_count
          else if e.category = "navigation" then s.nav_raw_count + 1
          else s.nav_raw_count } := by
  simp [summary_step, h1, hp,
    show ("tool_call" : String) ≠ "token_usage" from by decide]

theorem step_tool_work (s : SummaryState) (e : Event)
    (h1 : e.type = "tool_call") (hp : ¬ e.phase = "nav") :
    summary_step s e =
      { s with
        work_tools := s.work_tools ++ [e]
        work_files :=
          if e.file_path.getD "" ≠ "" then insert (e.file_path.getD "") s.work_files
          else s.work_files } := by
  simp [summary_step, h1, hp,
    show ("tool_call" : String) ≠ "token_usage" from by decide]

theorem step_other (s : SummaryState) (e : Event)
    (h1 : ¬ e.type = "token_usage") (h2 : ¬ e.type = "tool_call") :
    summary_step s e = s := by
  simp [summary_step, h1, h2]

theorem step_seen (s : SummaryState) (e : Event) :
    (summary_step s e).seen_message_ids =
      if e.type = "token_usage" ∧ msgTruthy e = true then
        insert (msgStr e) s.seen_message_ids
      else s.seen_message_ids := by
  by_cases h1 : e.type = "token_usage"
  · by_cases h2 : msgTruthy e = true
    · by_cases h3 : msgStr e ∈ s.seen_message_ids
      · rw [step_token_skip s e h1 h2 h3, if_pos ⟨h1, h2⟩]
        exact (Finset.insert_eq_self.mpr h3).symm
      · by_cases hp : e.phase = "nav"
        · rw [step_token_nav_truthy s e h1 h2 h3 hp, if_pos ⟨h1, h2⟩]
        · rw [step_token_work_truthy s e h1 h2 h3 hp, if_pos ⟨h1, h2⟩]
    · have h2' : msgTruthy e = false := by
        cases hb : msgTruthy e
        · rfl
        · exact absurd hb h2
      rw [if_neg (by tauto)]
      by_cases hp : e.phase = "nav"
      · rw [step_token_nav_plain s e h1 h2' hp]
      · rw [step_token_work_plain s e h1 h2' hp]
  · rw [if_neg (by tauto)]
    by_cases h2 : e.type = "tool_call"
    · by_cases hp : e.phase = "nav"
      · rw [step_tool_nav s e h2 hp]
      · rw [step_tool_work s e h2 hp]
    · rw [step_other s e h1 h2]

/-! ### The fold computes over the deduplicated event list -/

theorem foldl_dedup (evs : List Event) :
    ∀ s : SummaryState,
      (dedup_token_events s.seen_message_ids evs).foldl summary_step s =
        evs.foldl summary_step s := by
  induction evs with
  | nil => intro s; rfl
  | cons e rest ih =>
    intro s
    by_cases h1 : e.type = "token_usage" ∧ msgTruthy e = true
    · by_cases h3 : msgStr e ∈ s.seen_message_ids
      · rw [dedup_token_events, if_pos h1, if_pos h3, List.foldl_cons,
          step_token_skip s e h1.1 h1.2 h3]
        exact ih s
      · rw [dedup_token_events, if_pos h1, if_neg h3, List.foldl_cons,
          List.foldl_cons]
        have hseen : insert (msgStr e) s.seen_message_ids =
            (summary_step s e).seen_message_ids := by
          rw [step_seen, if_pos h1]
        rw [hseen]
        exact ih (summary_step s e)
    · rw [dedup_token_events, if_neg h1, List.foldl_cons, List.foldl_cons]
      have hseen : s.seen_message_ids = (summary_step s e).seen_message_ids := by
        rw [step_seen, if_neg h1]
      rw [hseen]
      exact ih (summary_step s e)

theorem compute_phase_summary_dedup (evs : List Event) (k : Option Nat) :
    compute_phase_summary evs k =
      compute_phase_summary (dedup_token_events ∅ evs) k := by
  have h : List.foldl summary_step {} (dedup_token_events ∅ evs) =
      List.foldl summary_step {} evs := foldl_dedup evs {}
  simp only [compute_phase_summary, h]

theorem foldl_token_sums (evs : List Event) :
    ∀ s : SummaryState,
      ((evs.foldl summary_step s).nav_tokens =
        s.nav_tokens.plus (tokens_total
          ((dedup_token_events s.seen_message_ids evs).filter
            (fun e => e.type == "token_usage" && e.phase == "nav"))))
      ∧ ((evs.foldl summary_step s).work_tokens =
        s.work_tokens.plus (tokens_total
          ((dedup_token_events s.seen_message_ids evs).filter
            (fun e => e.type == "token_usage" && !(e.phase == "nav")))))
      ∧ ((evs.foldl summary_step s).total_tokens =
        s.total_tokens.plus (tokens_total
          ((dedup_token_events s.seen_message_ids evs).filter
            (fun e => e.type == "token_usage")))) := by
  induction evs with
  | nil =>
    intro s
    simp [dedup_token_events, tokens_total, Tokens.plus_zero]
  | cons e rest ih =>
    intro s
    by_cases ht : e.type = "token_usage"
    · have hall : (e.type == "token_usage") = true := by simp [ht]
      by_cases h2 : msgTruthy e = true
      · by_cases h3 : msgStr e ∈ s.seen_message_ids
        · rw [dedup_token_events, if_pos ⟨ht, h2⟩, if_pos h3, List.foldl_cons,
            step_token_skip s e ht h2 h3]
          exact ih s
        · rw [dedup_token_events, if_pos ⟨ht, h2⟩, if_neg h3]
          by_cases hp : e.phase = "nav"
          · have hnav : (e.type == "token_usage" && e.phase == "nav") = true := by
              simp [ht, hp]
            have hwork : (e.type == "token_usage" && !(e.phase == "nav")) = false := by
              simp [ht, hp]
            rw [List.foldl_cons, step_token_nav_truthy s e ht h2 h3 hp]
            obtain ⟨iha, ihb, ihc⟩ := ih
              { s with
                seen_message_ids := insert (msgStr e) s.seen_message_ids
                total_tokens := s.total_tokens.plus (tokensOf e)
                nav_tokens := s.nav_tokens.plus (tokensOf e) }
            refine ⟨?_, ?_, ?_⟩
            · rw [iha]
              simp [List.filter_cons, hnav, if_true, tokens_total_cons,
                Tokens.plus_assoc]
            · rw [ihb]
              simp [List.filter_cons, hwork, if_false]
            · rw [ihc]
              simp [List.filter_cons, hall, if_true, tokens_total_cons,
                Tokens.plus_assoc]
          · have hnav : (e.type == "token_usage" && e.phase == "nav") = false := by
              simp [ht, hp]
            have hwork : (e.type == "token_usage" && !(e.phase == "nav")) = true := by
              simp [ht, hp]
            rw [List.foldl_cons, step_token_work_truthy s e ht h2 h3 hp]
            obtain ⟨iha, ihb, ihc⟩ := ih
              { s with
                seen_message_ids := insert (msgStr e) s.seen_message_ids
                total_tokens := s.total_tokens.plus (tokensOf e)
                work_tokens := s.work_tokens.plus (tokensOf e) }
            refine ⟨?_, ?_, ?_⟩
            · rw [iha]
              simp [List.filter_cons, hnav, if_false]
            · rw [ihb]
              simp [List.filter_cons, hwork, if_true, tokens_total_cons,
                Tokens.plus_assoc]
            · rw [ihc]
              simp [List.filter_cons, hall, if_true, tokens_total_cons,
                Tokens.plus_assoc]
      · have h2' : msgTruthy e = false := by
          cases hb : msgTruthy e
          · rfl
          · exact absurd hb h2
        rw [dedup_token_events, if_neg (by tauto)]
        by_cases hp : e.phase = "nav"
        · have hnav : (e.type == "token_usage" && e.phase == "nav") = true := by
            simp [ht, hp]
          have hwork : (e.type == "token_usage" && !(e.phase == "nav")) = false := by
            simp [ht, hp]
          rw [List.foldl_cons, step_token_nav_plain s e ht h2' hp]
          obtain ⟨iha, ihb, ihc⟩ := ih
            { s with
              total_tokens := s.total_tokens.plus (tokensOf e)
              nav_tokens := s.nav_tokens.plus (tokensOf e) }
          refine ⟨?_, ?_, ?_⟩
          · rw [iha]
            simp [List.filter_cons, hnav, if_true, tokens_total_cons,
              Tokens.plus_assoc]
          · rw [ihb]
            simp [List.filter_cons, hwork, if_false]
          · rw [ihc]
            simp [List.filter_cons, hall, if_true, tokens_total_cons,
              Tokens.plus_assoc]
        · have hnav : (e.type == "token_usage" && e.phase == "nav") = false := by
            simp [ht, hp]
          have hwork : (e.type == "token_usage" && !(e.phase == "nav")) = true := by
            simp [ht, hp]
          rw [List.foldl_cons, step_token_work_plain s e ht h2' hp]
          obtain ⟨iha, ihb, ihc⟩ := ih
            { s with
              total_tokens := s.total_tokens.plus (tokensOf e)
              work_tokens := s.work_tokens.plus (tokensOf e) }
          refine ⟨?_, ?_, ?_⟩
          · rw [iha]
            simp [List.filter_cons, hnav, if_false]
          · rw [ihb]
            simp [List.filter_cons, hwork, if_true, tokens_total_cons,
              Tokens.plus_assoc]
          · rw [ihc]
            simp [List.filter_cons, hall, if_true, tokens_total_cons,
              Tokens.plus_assoc]
    · have hall : (e.type == "token_usage") = false := by simp [ht]
      have hnav : (e.type == "token_usage" && e.phase == "nav") = false := by
        simp [ht]
      have hwork : (e.type == "token_usage" && !(e.phase == "nav")) = false := by
        simp [ht]
      rw [dedup_token_events, if_neg (by tauto)]
      by_cases htc : e.type = "tool_call"
      · by_cases hp : e.phase = "nav"
        · rw [List.foldl_cons, step_tool_nav s e htc hp]
          obtain ⟨iha, ihb, ihc⟩ := ih
            { s with
              nav_tools := s.nav_tools ++ [e]
              nav_files :=
                if e.file_path.getD "" ≠ "" then
                  insert (e.file_path.getD "") s.nav_files
                else s.nav_files
              nav_fmm_count :=
                if e.category = "fmm_navigation" then s.nav_fmm_count + 1
                else s.nav_fmm_count
              nav_raw_count :=
                if e.category = "fmm_navigation" then s.nav_raw_count
                else if e.category = "navigation" then s.nav_raw_count + 1
                else s.nav_raw_count }
          refine ⟨?_, ?_, ?_⟩
          · rw [iha]; simp [List.filter_cons, hnav, if_false]
          · rw [ihb]; simp [List.filter_cons, hwork, if_false]
          · rw [ihc]; simp [List.filter_cons, hall, if_false]
        · rw [List.foldl_cons, step_tool_work s e htc hp]
          obtain ⟨iha, ihb, ihc⟩ := ih
            { s with
              work_tools := s.work_tools ++ [e]
              work_files :=
                if e.file_path.getD "" ≠ "" then
                  insert (e.file_path.getD "") s.work_files
                else s.work_files }
          refine ⟨?_, ?_, ?_⟩
          · rw [iha]; simp [List.filter_cons, hnav, if_false]
          · rw [ihb]; simp [List.filter_cons, hwork, if_false]
          · rw [ihc]; simp [List.filter_cons, hall, if_false]
      · rw [List.foldl_cons, step_other s e ht htc]
        obtain ⟨iha, ihb, ihc⟩ := ih s
        refine ⟨?_, ?_, ?_⟩
        · rw [iha]; simp [List.filter_cons, hnav, if_false]
        · rw [ihb]; simp [List.filter_cons, hwork, if_false]
        · rw [ihc]; simp [List.filter_cons, hall, if_false]

theorem foldl_tools (evs : List Event) :
    ∀ s : SummaryState,
      ((evs.foldl summary_step s).nav_tools =
        s.nav_tools ++ evs.filter (fun e => e.type == "tool_call" && e.phase == "nav"))
      ∧ ((evs.foldl summary_step s).work_tools =
        s.work_tools ++ evs.filter
          (fun e => e.type == "tool_call" && !(e.phase == "nav"))) := by
  induction evs with
  | nil => intro s; simp
  | cons e rest ih =>
    intro s
    by_cases ht : e.type = "tool_call"
    · by_cases hp : e.phase = "nav"
      · have hnav : (e.type == "tool_call" && e.phase == "nav") = true := by
          simp [ht, hp]
        have hwork : (e.type == "tool_call" && !(e.phase == "nav")) = false := by
          simp [ht, hp]
        rw [List.foldl_cons, step_tool_nav s e ht hp]
        obtain ⟨iha, ihb⟩ := ih
          { s with
            nav_tools := s.nav_tools ++ [e]
            nav_files :=
              if e.file_path.getD "" ≠ "" then
                insert (e.file_path.getD "") s.nav_files
              else s.nav_files
            nav_fmm_count :=
              if e.category = "fmm_navigation" then s.nav_fmm_count + 1
              else s.nav_fmm_count
            nav_raw_count :=
              if e.category = "fmm_navigation" then s.nav_raw_count
              else if e.category = "navigation" then s.nav_raw_count + 1
              else s.nav_raw_count }
        constructor
        · rw [iha]
          simp [List.filter_cons, hnav]
        · rw [ihb]
          simp [List.filter_cons, hwork]
      · have hnav : (e.type == "tool_call" && e.phase == "nav") = false := by
          simp [ht, hp]
        have hwork : (e.type == "tool_call" && !(e.phase == "nav")) = true := by
          simp [ht, hp]
        rw [List.foldl_cons, step_tool_work s e ht hp]
        obtain ⟨iha, ihb⟩ := ih
          { s with
            work_tools := s.work_tools ++ [e]
            work_files :=
              if e.file_path.getD "" ≠ "" then
                insert (e.file_path.getD "") s.work_files
              else s.work_files }
        constructor
        · rw [iha]
          simp [List.filter_cons, hnav]
        · rw [ihb]
          simp [List.filter_cons, hwork]
    · have hnav : (e.type == "tool_call" && e.phase == "nav") = false := by
        simp [ht]
      have hwork : (e.type == "tool_call" && !(e.phase == "nav")) = false := by
        simp [ht]
      have hstep : (summary_step s e).nav_tools = s.nav_tools
          ∧ (summary_step s e).work_tools = s.work_tools := by
        by_cases htok : e.type = "token_usage"
        · by_cases h2 : msgTruthy e = true
          · by_cases h3 : msgStr e ∈ s.seen_message_ids
            · rw [step_token_skip s e htok h2 h3]; exact ⟨rfl, rfl⟩
            · by_cases hp : e.phase = "nav"
              · rw [step_token_nav_truthy s e htok h2 h3 hp]; exact ⟨rfl, rfl⟩
              · rw [step_token_work_truthy s e htok h2 h3 hp]; exact ⟨rfl, rfl⟩
          · have h2' : msgTruthy e = false := by
              cases hb : msgTruthy e
              · rfl
              · exact absurd hb h2
            by_cases hp : e.phase = "nav"
            · rw [step_token_nav_plain s e htok h2' hp]; exact ⟨rfl, rfl⟩
            · rw [step_token_work_plain s e htok h2' hp]; exact ⟨rfl, rfl⟩
        · rw [step_other s e htok ht]; exact ⟨rfl, rfl⟩
      rw [List.foldl_cons]
      obtain ⟨iha, ihb⟩ := ih (summary_step s e)
      constructor
      · rw [iha, hstep.1]
        simp [List.filter_cons, hnav]
      · rw [ihb, hstep.2]
        simp [List.filter_cons, hwork]

/-! ### Partition lemmas -/

theorem tokens_total_filter_split (l : List Event) (p q : Event → Bool) :
    (tokens_total (l.filter (fun e => p e && q e))).plus
        (tokens_total (l.filter (fun e => p e && !(q e)))) =
      tokens_total (l.filter p) := by
  induction l with
  | nil => simp [tokens_total, Tokens.plus_zero]
  | cons e rest ih =>
    by_cases hp : p e = true
    · by_cases hq : q e = true
      · simp [List.filter_cons, hp, hq, tokens_total_cons, Tokens.plus_assoc, ih]
      · simp only [List.filter_cons, hp, hq]
        simp [tokens_total_cons, Tokens.plus_left_comm, ← ih]
    · simp [List.filter_cons, hp, ih]

theorem countP_split {α : Type} (l : List α) (p q : α → Bool) :
    l.countP (fun x => p x && q x) + l.countP (fun x => p x && !(q x)) =
      l.countP p := by
  induction l with
  | nil => rfl
  | cons e rest ih =>
    by_cases hp : p e = true
    · by_cases hq : q e = true
      · simp [List.countP_cons, hp, hq]; omega
      · simp [List.countP_cons, hp, hq]; omega
    · simp [List.countP_cons, hp, ih]

/-! ### Claims about the phase summary -/

/-- C9: the nav and work token totals sum to the overall token total, and the
nav and work tool-call counts sum to the overall tool-call count, which is the
number of `tool_call` events in the run. -/
theorem C9_partition_sums :
    ∀ (evs : List Event) (k : Option Nat),
      (compute_phase_summary evs k).nav_phase.token_total
          + (compute_phase_summary evs k).work_phase.token_total
        = (compute_phase_summary evs k).totals.token_total
      ∧ (compute_phase_summary evs k).nav_phase.tool_call_count
          + (compute_phase_summary evs k).work_phase.tool_call_count
        = (compute_phase_summary evs k).totals.tool_calls
      ∧ (compute_phase_summary evs k).totals.tool_calls
        = evs.countP (fun e => e.type == "tool_call") := by
  intro evs k
  obtain ⟨ha, hb, hc⟩ := foldl_token_sums evs {}
  obtain ⟨hta, htb⟩ := foldl_tools evs {}
  refine ⟨?_, ?_, ?_⟩
  · show token_sum (List.foldl summary_step {} evs).nav_tokens
        + token_sum (List.foldl summary_step {} evs).work_tokens
      = token_sum (List.foldl summary_step {} evs).total_tokens
    rw [ha, hb, hc, Tokens.zero_plus, Tokens.zero_plus, Tokens.zero_plus,
      ← token_sum_plus,
      tokens_total_filter_split (dedup_token_events ∅ evs)
        (fun e => e.type == "token_usage") (fun e => e.phase == "nav")]
  · rfl
  · show (List.foldl summary_step {} evs).nav_tools.length
        + (List.foldl summary_step {} evs).work_tools.length
      = evs.countP (fun e => e.type == "tool_call")
    rw [hta, htb]
    simp only [List.nil_append, ← List.countP_eq_length_filter]
    exact countP_split evs (fun e => e.type == "tool_call")
      (fun e => e.phase == "nav")

/-- C7: each reported `token_total` is exactly the input sum plus the output
sum of its partition of counted `token_usage` events; cache-creation and
cache-read tokens are accumulated in the per-kind token record but never
enter any `token_total`. -/
theorem C7_token_total_excludes_cache :
    ∀ (evs : List Event) (k : Option Nat),
      (compute_phase_summary evs k).nav_phase.token_total
          = (tokens_total (counted_nav_token_events evs)).input
            + (tokens_total (counted_nav_token_events evs)).output
      ∧ (compute_phase_summary evs k).work_phase.token_total
          = (tokens_total (counted_work_token_events evs)).input
            + (tokens_total (counted_work_token_events evs)).output
      ∧ (compute_phase_summary evs k).totals.token_total
          = (tokens_total (counted_token_events evs)).input
            + (tokens_total (counted_token_events evs)).output
      ∧ (compute_phase_summary evs k).nav_phase.tokens
          = tokens_total (counted_nav_token_events evs)
      ∧ (compute_phase_summary evs k).work_phase.tokens
          = tokens_total (counted_work_token_events evs)
      ∧ (compute_phase_summary evs k).totals.tokens
          = tokens_total (counted_token_events evs) := by
  intro evs k
  obtain ⟨ha, hb, hc⟩ := foldl_token_sums evs {}
  have ha' : (List.foldl summary_step {} evs).nav_tokens =
      tokens_total (counted_nav_token_events evs) := by
    rw [ha, Tokens.zero_plus]; rfl
  have hb' : (List.foldl summary_step {} evs).work_tokens =
      tokens_total (counted_work_token_events evs) := by
    rw [hb, Tokens.zero_plus]; rfl
  have hc' : (List.foldl summary_step {} evs).total_tokens =
      tokens_total (counted_token_events evs) := by
    rw [hc, Tokens.zero_plus]; rfl
  exact ⟨congrArg token_sum ha', congrArg token_sum hb', congrArg token_sum hc',
    ha', hb', hc'⟩

/-! ### Token-usage deduplication (C3) -/

theorem dedup_replicate_mem (e : Event) (h1 : e.type = "token_usage")
    (h2 : msgTruthy e = true) :
    ∀ (n : Nat) (seen : Finset String), msgStr e ∈ seen →
      dedup_token_events seen (List.replicate n e) = [] := by
  intro n
  induction n with
  | zero => intro seen _; rfl
  | succ n ih =>
    intro seen hm
    rw [List.replicate_succ, dedup_token_events, if_pos ⟨h1, h2⟩, if_pos hm]
    exact ih seen hm

theorem dedup_replicate_truthy (e : Event) (h1 : e.type = "token_usage")
    (h2 : msgTruthy e = true) (n : Nat) :
    dedup_token_events ∅ (List.replicate (n + 1) e) = [e] := by
  rw [List.replicate_succ, dedup_token_events, if_pos ⟨h1, h2⟩,
    if_neg (Finset.not_mem_empty _),
    dedup_replicate_mem e h1 h2 n _ (Finset.mem_insert_self _ _)]

theorem dedup_no_id (e : Event) (h2 : msgTruthy e = false) :
    ∀ (n : Nat) (seen : Finset String),
      dedup_token_events seen (List.replicate n e) = List.replicate n e := by
  intro n
  induction n with
  | zero => intro seen; rfl
  | succ n ih =>
    intro seen
    rw [List.replicate_succ, dedup_token_events, if_neg (by simp [h2]),
      ih seen, ← List.replicate_succ]

theorem tokens_total_replicate (e : Event) (n : Nat) :
    (tokens_total (List.replicate n e)).input = n * e.input_tokens := by
  induction n with
  | zero => simp [tokens_total]
  | succ n ih =>
    rw [List.replicate_succ, tokens_total_cons]
    simp [Tokens.plus, tokensOf, ih]
    ring

theorem filter_replicate_true {α : Type} (p : α → Bool) (e : α) (h : p e = true) :
    ∀ n, (List.replicate n e).filter p = List.replicate n e := by
  intro n
  induction n with
  | zero => rfl
  | succ n ih => rw [List.replicate_succ, List.filter_cons, if_pos h, ih,
      ← List.replicate_succ]

/-- C3 (amended): the phase summary equals the summary of the first-occurrence
deduplicated event list, where deduplication keys on present **non-empty**
message ids; any number of duplicates of a truthy-id event summarize as a
single occurrence; events whose message id is absent (or empty, by Python
truthiness) are always counted, `n` copies contributing `n` payloads. -/
theorem C3_token_dedup :
    (∀ (evs : List Event) (k : Option Nat),
      compute_phase_summary evs k =
        compute_phase_summary (dedup_token_events ∅ evs) k)
    ∧ (∀ (e : Event) (n : Nat) (k : Option Nat),
        e.type = "token_usage" → msgTruthy e = true →
          compute_phase_summary (List.replicate (n + 1) e) k =
            compute_phase_summary [e] k)
    ∧ (∀ (e : Event) (n : Nat) (k : Option Nat),
        e.type = "token_usage" → e.message_id = none →
          (compute_phase_summary (List.replicate n e) k).totals.tokens.input =
            n * e.input_tokens) := by
  refine ⟨?_, ?_, ?_⟩
  · exact compute_phase_summary_dedup
  · intro e n k h1 h2
    rw [compute_phase_summary_dedup, dedup_replicate_truthy e h1 h2 n]
  · intro e n k h1 h2
    have h2' : msgTruthy e = false := by simp [msgTruthy, h2]
    obtain ⟨_, _, hc⟩ := foldl_token_sums (List.replicate n e) {}
    show (List.foldl summary_step {} (List.replicate n e)).total_tokens.input =
      n * e.input_tokens
    rw [hc, Tokens.zero_plus]
    have hd : dedup_token_events (∅ : Finset String) (List.replicate n e) =
        List.replicate n e := dedup_no_id e h2' n ∅
    rw [show dedup_token_events ({} : SummaryState).seen_message_ids
          (List.replicate n e) = List.replicate n e from hd,
      filter_replicate_true _ e (by simp [h1]) n, tokens_total_replicate]

/-- Counterexample to C3 as stated: two identical `token_usage` events sharing
the non-null message id `""` are **both** counted (Python truthiness treats
the empty id as absent), so the duplicates contribute two payloads where the
claim promises exactly one. -/
theorem C3_token_dedup_counterexample :
    (compute_phase_summary
        [classifiedTokEv 0 1 0 (some "") "nav",
         classifiedTokEv 1 1 0 (some "") "nav"] none).totals.token_total = 2
    ∧ (compute_phase_summary [classifiedTokEv 0 1 0 (some "") "nav"]
        none).totals.token_total = 1 := by
  constructor <;> decide

/-- Witness for C3 at a concrete duplicated event. -/
theorem C3_token_dedup_witness :
    compute_phase_summary
        (List.replicate 3 (classifiedTokEv 0 100 50 (some "mid") "nav")) none =
      compute_phase_summary [classifiedTokEv 0 100 50 (some "mid") "nav"] none :=
  C3_token_dedup.2.1 (classifiedTokEv 0 100 50 (some "mid") "nav") 2 none
    (by decide) (by decide)

/-! ### The end-to-end scenario (C5) -/

/-- Counterexample to C5 as stated: extracting the §8 scenario per §4.1 puts
the second usage report (seq 3) **before** the Edit (seq 4), so the boundary
is 4, not 2, and both usage payloads fall in the nav phase: nav 1200 / work 0,
not 600 / 600. -/
theorem C5_scenario_counterexample :
    scenarioSummary.first_edit_seq = some 4
    ∧ ¬ scenarioSummary.first_edit_seq = some 2
    ∧ scenarioSummary.nav_phase.token_total = 1200
    ∧ ¬ scenarioSummary.nav_phase.token_total = 600
    ∧ scenarioSummary.work_phase.token_total = 0
    ∧ ¬ scenarioSummary.work_phase.token_total = 600 := by
  refine ⟨?_, ?_, ?_, ?_, ?_, ?_⟩ <;> decide

/-- C5 (amended): the §8 scenario extracts to events
init=0, token_usage=1, Read=2, token_usage=3, Edit=4; classification puts the
boundary at seq 4, the nav phase holds both usage payloads
(token_total 1200), the work phase none (token_total 0), and
`has_edits = True`. -/
theorem C5_scenario :
    (parse_log_file scenarioRecords).map Event.type =
        ["init", "token_usage", "tool_call", "token_usage", "tool_call"]
    ∧ (parse_log_file scenarioRecords).map Event.seq = [0, 1, 2, 3, 4]
    ∧ scenarioSummary.first_edit_seq = some 4
    ∧ scenarioSummary.nav_phase.token_total = 1200
    ∧ scenarioSummary.work_phase.token_total = 0
    ∧ scenarioSummary.has_edits = true := by
  refine ⟨?_, ?_, ?_, ?_, ?_, ?_⟩ <;> decide

/-! ### Aggregation lemmas -/

theorem agg_step_files (a : AggState) (p : String × PhaseSummary) :
    (agg_step a p).nav_unique_files =
      a.nav_unique_files ∪ p.2.nav_phase.unique_files.toFinset := by
  simp only [agg_step]
  split_ifs <;> rfl

theorem foldl_agg_files (l : List (String × PhaseSummary)) :
    ∀ a : AggState, (l.foldl agg_step a).nav_unique_files =
      a.nav_unique_files ∪ nav_files_union l := by
  induction l with
  | nil => intro a; simp [nav_files_union]
  | cons p rest ih =>
    intro a
    rw [List.foldl_cons, ih (agg_step a p), agg_step_files, Finset.union_assoc]
    rfl

theorem nav_files_union_perm {l1 l2 : List (String × PhaseSummary)}
    (h : l1.Perm l2) : nav_files_union l1 = nav_files_union l2 := by
  induction h with
  | nil => rfl
  | cons x _ ih =>
    show _ ∪ nav_files_union _ = _ ∪ nav_files_union _
    rw [ih]
  | swap x y l =>
    show _ ∪ (_ ∪ nav_files_union l) = _ ∪ (_ ∪ nav_files_union l)
    rw [Finset.union_left_comm]
  | trans _ _ ih1 ih2 => exact ih1.trans ih2

theorem agg_step_fe_some (a : AggState) (p : String × PhaseSummary) (x : String)
    (h : a.first_edit_iteration = some x) :
    (agg_step a p).first_edit_iteration = some x
    ∧ (agg_step a p).first_edit_pct = a.first_edit_pct := by
  constructor <;> (simp [agg_step, h]; split_ifs <;> rfl)

theorem agg_step_fe_keep (a : AggState) (p : String × PhaseSummary)
    (h : p.2.has_edits = false) :
    (agg_step a p).first_edit_iteration = a.first_edit_iteration
    ∧ (agg_step a p).first_edit_pct = a.first_edit_pct := by
  constructor <;> simp [agg_step, h]

theorem agg_step_fe_new (a : AggState) (p : String × PhaseSummary)
    (h1 : a.first_edit_iteration = none) (h2 : a.first_edit_pct = none)
    (he : p.2.has_edits = true) :
    (agg_step a p).first_edit_iteration = some p.1
    ∧ (agg_step a p).first_edit_pct =
        (if p.2.totals.token_total > 0 then
          some (roundHalfEven
            ((p.2.nav_phase.token_total : ℚ) / (p.2.totals.token_total : ℚ) * 100))
        else none) := by
  constructor <;> simp [agg_step, h1, h2, he]

theorem foldl_fe_stable (l : List (String × PhaseSummary)) :
    ∀ (a : AggState) (x : String), a.first_edit_iteration = some x →
      (l.foldl agg_step a).first_edit_pct = a.first_edit_pct := by
  induction l with
  | nil => intro a x _; rfl
  | cons p rest ih =>
    intro a x h
    obtain ⟨h1, h2⟩ := agg_step_fe_some a p x h
    rw [List.foldl_cons, ih (agg_step a p) x h1, h2]

theorem foldl_fe_none (l : List (String × PhaseSummary)) :
    ∀ a : AggState, a.first_edit_iteration = none → a.first_edit_pct = none →
      (l.foldl agg_step a).first_edit_pct =
        match l.find? (fun q => q.2.has_edits) with
        | some p =>
            if p.2.totals.token_total > 0 then
              some (roundHalfEven
                ((p.2.nav_phase.token_total : ℚ) / (p.2.totals.token_total : ℚ) * 100))
            else none
        | none => none := by
  induction l with
  | nil => intro a _ h2; exact h2
  | cons p rest ih =>
    intro a h1 h2
    by_cases he : p.2.has_edits = true
    · rw [@List.find?_cons_of_pos _ (fun q => q.2.has_edits) p rest he,
        List.foldl_cons]
      obtain ⟨hfi, hfp⟩ := agg_step_fe_new a p h1 h2 he
      rw [foldl_fe_stable rest (agg_step a p) p.1 hfi, hfp]
    · have he' : p.2.has_edits = false := by
        cases hb : p.2.has_edits
        · rfl
        · exact absurd hb he
      rw [@List.find?_cons_of_neg _ (fun q => q.2.has_edits) p rest he,
        List.foldl_cons]
      obtain ⟨hfi, hfp⟩ := agg_step_fe_keep a p he'
      exact ih (agg_step a p) (hfi.trans h1) (hfp.trans h2)

/-! ### Decimal representations start with a digit -/

theorem digitChar_isDigit (m : Nat) (h : m < 10) :
    (Nat.digitChar m).isDigit = true := by
  interval_cases m <;> decide

theorem toDigitsCore_shape :
    ∀ (fuel n : Nat) (ds : List Char),
      ∃ l, Nat.toDigitsCore 10 fuel n ds = l ++ ds
        ∧ (∀ c ∈ l, c.isDigit = true) ∧ (fuel ≠ 0 → l ≠ []) := by
  intro fuel
  induction fuel with
  | zero =>
    intro n ds
    exact ⟨[], rfl, by simp, by simp⟩
  | succ fuel ih =>
    intro n ds
    by_cases h : n / 10 = 0
    · refine ⟨[Nat.digitChar (n % 10)], ?_, ?_, by simp⟩
      · simp only [Nat.toDigitsCore]
        rw [if_pos h]
        rfl
      · intro c hc
        rw [List.mem_singleton.mp hc]
        exact digitChar_isDigit _ (Nat.mod_lt n (by decide))
    · obtain ⟨l, hl, hdig, _⟩ := ih (n / 10) (Nat.digitChar (n % 10) :: ds)
      refine ⟨l ++ [Nat.digitChar (n % 10)], ?_, ?_, by simp⟩
      · simp only [Nat.toDigitsCore]
        rw [if_neg h, hl, List.append_assoc]
        rfl
      · intro c hc
        rcases List.mem_append.mp hc with hc' | hc'
        · exact hdig c hc'
        · rw [List.mem_singleton.mp hc']
          exact digitChar_isDigit _ (Nat.mod_lt n (by decide))

theorem repr_head_digit (n : Nat) :
    ∃ c cs, (Nat.repr n).data = c :: cs ∧ c.isDigit = true := by
  obtain ⟨l, hl, hdig, hne⟩ := toDigitsCore_shape (n + 1) n []
  have hdata : (Nat.repr n).data = l := by
    show (Nat.toDigits 10 n).asString.data = l
    rw [Nat.toDigits, hl, List.append_nil]
    rfl
  cases l with
  | nil => exact absurd rfl (hne (Nat.succ_ne_zero n))
  | cons c cs =>
    exact ⟨c, cs, hdata, hdig c (List.mem_cons_self c cs)⟩

theorem repr_ratio_ne_na (a b : Nat) :
    ¬ (Nat.repr a ++ "/" ++ Nat.repr b) = "n/a" := by
  intro h
  have hd : (Nat.repr a ++ "/" ++ Nat.repr b).data = "n/a".data :=
    congrArg String.data h
  rw [String.data_append, String.data_append] at hd
  obtain ⟨c, cs, hcs, hdig⟩ := repr_head_digit a
  rw [hcs] at hd
  have hna : ("n/a" : String).data = ['n', '/', 'a'] := rfl
  rw [hna] at hd
  have hc : c = 'n' := by
    have := congrArg List.head? hd
    simpa using this
  rw [hc] at hdig
  exact absurd hdig (by decide)

/-! ### Claims about cross-run aggregation -/

/-- C6: the condition-level unique-file count is the cardinality of the union
of the per-run nav-phase unique-file sets, not the sum of their sizes: two
runs touching `/a.py` (the second also `/c.py`) count 2, not 3. -/
theorem C6_unique_files_union :
    (∀ runs : List (String × PhaseSummary),
      (aggregate_iterations runs).nav_unique_file_count =
        (nav_files_union runs).card)
    ∧ (aggregate_iterations
        [("iter1", exampleRun ["/a.py"] 500 200 none),
         ("iter2", exampleRun ["/a.py", "/c.py"] 300 100 (some 5))]).nav_unique_file_count
        = 2
    ∧ ¬ (aggregate_iterations
        [("iter1", exampleRun ["/a.py"] 500 200 none),
         ("iter2", exampleRun ["/a.py", "/c.py"] 300 100 (some 5))]).nav_unique_file_count
        = 3 := by
  refine ⟨?_, by decide, by decide⟩
  intro runs
  show ((sort_runs runs).foldl agg_step {}).nav_unique_files.card = _
  have hperm : nav_files_union (sort_runs runs) = nav_files_union runs :=
    nav_files_union_perm (List.perm_insertionSort _ runs)
  rw [foldl_agg_files (sort_runs runs) {}, hperm]
  have hz : ({} : AggState).nav_unique_files = ∅ := rfl
  rw [hz, Finset.empty_union]

/-- C8: the aggregate never divides by zero: `nav_pct` is 0 when the
condition total tokens are 0 and otherwise the rounded percentage;
`sidecar_ratio` is the sentinel `"n/a"` exactly when there were no navigation
lookups, else the `fmm/total` string; and `first_edit_pct` stays `null` when
the first editing run has zero total tokens. -/
theorem C8_division_guards :
    (∀ runs : List (String × PhaseSummary),
      (aggregate_iterations runs).total_tokens = 0 →
        (aggregate_iterations runs).nav_pct = 0)
    ∧ (∀ runs : List (String × PhaseSummary),
        0 < (aggregate_iterations runs).total_tokens →
          (aggregate_iterations runs).nav_pct =
            roundHalfEven (((aggregate_iterations runs).nav_tokens : ℚ) /
              ((aggregate_iterations runs).total_tokens : ℚ) * 100))
    ∧ (∀ runs : List (String × PhaseSummary),
        ((aggregate_iterations runs).sidecar_ratio = "n/a" ↔
          (aggregate_iterations runs).fmm_lookups
            + (aggregate_iterations runs).raw_nav_lookups = 0))
    ∧ (∀ runs : List (String × PhaseSummary),
        0 < (aggregate_iterations runs).fmm_lookups
            + (aggregate_iterations runs).raw_nav_lookups →
          (aggregate_iterations runs).sidecar_ratio =
            Nat.repr (aggregate_iterations runs).fmm_lookups ++ "/"
              ++ Nat.repr ((aggregate_iterations runs).fmm_lookups
                  + (aggregate_iterations runs).raw_nav_lookups))
    ∧ (∀ (runs : List (String × PhaseSummary)) (p : String × PhaseSummary),
        (sort_runs runs).find? (fun q => q.2.has_edits) = some p →
          p.2.totals.token_total = 0 →
            (aggregate_iterations runs).first_edit_pct = none) := by
  refine ⟨?_, ?_, ?_, ?_, ?_⟩
  · intro runs h
    have h' : ((sort_runs runs).foldl agg_step {}).total_tokens = 0 := h
    show (if ((sort_runs runs).foldl agg_step {}).total_tokens > 0 then
        roundHalfEven (((((sort_runs runs).foldl agg_step {}).nav_tokens : ℚ)) /
          ((((sort_runs runs).foldl agg_step {}).total_tokens : ℚ)) * 100)
      else 0) = 0
    rw [if_neg (by omega)]
  · intro runs h
    have h' : ((sort_runs runs).foldl agg_step {}).total_tokens > 0 := h
    show (if ((sort_runs runs).foldl agg_step {}).total_tokens > 0 then
        roundHalfEven (((((sort_runs runs).foldl agg_step {}).nav_tokens : ℚ)) /
          ((((sort_runs runs).foldl agg_step {}).total_tokens : ℚ)) * 100)
      else 0) = _
    rw [if_pos h']
    rfl
  · intro runs
    constructor
    · intro h
      by_contra hz
      have hpos : 0 < ((sort_runs runs).foldl agg_step {}).fmm_lookups +
          ((sort_runs runs).foldl agg_step {}).raw_nav_lookups :=
        Nat.pos_of_ne_zero hz
      have hratio : (aggregate_iterations runs).sidecar_ratio =
          Nat.repr ((sort_runs runs).foldl agg_step {}).fmm_lookups ++ "/"
            ++ Nat.repr (((sort_runs runs).foldl agg_step {}).fmm_lookups
                + ((sort_runs runs).foldl agg_step {}).raw_nav_lookups) := by
        show (if 0 < ((sort_runs runs).foldl agg_step {}).fmm_lookups +
            ((sort_runs runs).foldl agg_step {}).raw_nav_lookups then
            Nat.repr ((sort_runs runs).foldl agg_step {}).fmm_lookups ++ "/"
              ++ Nat.repr (((sort_runs runs).foldl agg_step {}).fmm_lookups
                  + ((sort_runs runs).foldl agg_step {}).raw_nav_lookups)
          else "n/a") = _
        rw [if_pos hpos]
      rw [h] at hratio
      exact repr_ratio_ne_na _ _ hratio.symm
    · intro h
      have h' : ((sort_runs runs).foldl agg_step {}).fmm_lookups +
          ((sort_runs runs).foldl agg_step {}).raw_nav_lookups = 0 := h
      show (if 0 < ((sort_runs runs).foldl agg_step {}).fmm_lookups +
          ((sort_runs runs).foldl agg_step {}).raw_nav_lookups then
          Nat.repr ((sort_runs runs).foldl agg_step {}).fmm_lookups ++ "/"
            ++ Nat.repr (((sort_runs runs).foldl agg_step {}).fmm_lookups
                + ((sort_runs runs).foldl agg_step {}).raw_nav_lookups)
        else "n/a") = "n/a"
      rw [if_neg (by omega)]
  · intro runs h
    have h' : 0 < ((sort_runs runs).foldl agg_step {}).fmm_lookups +
        ((sort_runs runs).foldl agg_step {}).raw_nav_lookups := h
    show (if 0 < ((sort_runs runs).foldl agg_step {}).fmm_lookups +
        ((sort_runs runs).foldl agg_step {}).raw_nav_lookups then
        Nat.repr ((sort_runs runs).foldl agg_step {}).fmm_lookups ++ "/"
          ++ Nat.repr (((sort_runs runs).foldl agg_step {}).fmm_lookups
              + ((sort_runs runs).foldl agg_step {}).raw_nav_lookups)
      else "n/a") = _
    rw [if_pos h']
    rfl
  · intro runs p hfind hz
    show ((sort_runs runs).foldl agg_step {}).first_edit_pct = none
    rw [foldl_fe_none (sort_runs runs) {} rfl rfl, hfind]
    show (if p.2.totals.token_total > 0 then
        some (roundHalfEven
          ((p.2.nav_phase.token_total : ℚ) / (p.2.totals.token_total : ℚ) * 100))
      else none) = none
    rw [if_neg (by omega)]

/-- Witness for C8 at concrete aggregates: an empty condition for the zero
guards, a one-run condition with tokens for the percentage path, and a
one-run condition whose editing run spent zero tokens for the pct guard. -/
theorem C8_division_guards_witness :
    (aggregate_iterations ([] : List (String × PhaseSummary))).nav_pct = 0
    ∧ (aggregate_iterations [("i1", exampleRun [] 300 100 none)]).nav_pct =
        roundHalfEven
          (((aggregate_iterations [("i1", exampleRun [] 300 100 none)]).nav_tokens : ℚ) /
            ((aggregate_iterations [("i1", exampleRun [] 300 100 none)]).total_tokens : ℚ)
            * 100)
    ∧ (aggregate_iterations ([] : List (String × PhaseSummary))).sidecar_ratio = "n/a"
    ∧ (aggregate_iterations [("i1", exampleRun [] 0 0 (some 2))]).first_edit_pct = none :=
  ⟨C8_division_guards.1 [] (by decide),
   C8_division_guards.2.1 [("i1", exampleRun [] 300 100 none)] (by decide),
   (C8_division_guards.2.2.1 []).mpr (by decide),
   C8_division_guards.2.2.2.2 [("i1", exampleRun [] 0 0 (some 2))]
     ("i1", exampleRun [] 0 0 (some 2)) rfl rfl⟩

end Nancy
